import Mathlib

/-!
# sweb: the document buffer, its lock and its file

A shallow embedding of `main.go`: the `document` struct (embedded
`sync.RWMutex`, `path`, `saved`, `buf`), `init`, `document.open`,
`document.save`, the body of the ticker loop of `document.doSync` and
`handleBackend`.

The operating system is a parameter of every function that touches it: the
file system is passed in and out, and every call that can fail in Go takes
the failure it meets (or `none`) as an argument.  A function that takes the
mutex returns an `Option`: `none` means that the lock is not granted in this
state, so the call does not return from it.  Each function runs as one step;
the interleaving of goroutines inside a critical section is not modelled.
-/

namespace Sweb

/-! ## Bytes, errors, readers -/

abbrev Bytes := List UInt8

/-- Go `error` values met by the program: the not-exist error of the `os`
package and any other failure, named by a number. -/
inductive GoError where
  | ErrNotExist
  | Other (code : Nat)
deriving DecidableEq

/-- The function `os.IsNotExist`. -/
def IsNotExist : GoError → Bool
  | .ErrNotExist => true
  | .Other _ => false

/-- A transfer that breaks off: `n` bytes went through, then `err` came. -/
structure Short where
  n : Nat
  err : GoError
deriving DecidableEq

/-- An `io.Reader`: the bytes it holds and, when reading breaks off, where
and with which error. -/
structure Reader where
  data : Bytes
  fault : Option Short
deriving DecidableEq

/-- What a reader yields before end of file or its error. -/
def Reader.yield (r : Reader) : Bytes :=
  match r.fault with
  | none => r.data
  | some s => r.data.take s.n

/-- The call `io.Copy(dst, src)` on a `bytes.Buffer` destination: everything the
source yields is appended to the buffer; the error is the source's. -/
def ioCopy (dst : Bytes) (src : Reader) : Bytes × Option GoError :=
  (dst ++ src.yield, src.fault.map Short.err)

/-! ## sync.RWMutex -/

/-- The state of a `sync.RWMutex`: whether a writer holds it and how many
readers hold it. -/
structure RWMutex where
  writer : Bool
  readers : Nat
deriving DecidableEq

/-- The zero value: an unlocked mutex. -/
def RWMutex.zero : RWMutex := ⟨false, 0⟩

/-- Method `Lock`: granted when nobody holds the mutex; otherwise the caller waits
(`none`). -/
def RWMutex.Lock (m : RWMutex) : Option RWMutex :=
  if m.writer = false ∧ m.readers = 0 then some { m with writer := true } else none

/-- Method `Unlock`. -/
def RWMutex.Unlock (m : RWMutex) : RWMutex := { m with writer := false }

/-- Method `RLock`: granted when no writer holds the mutex; otherwise the
caller waits (`none`). -/
def RWMutex.RLock (m : RWMutex) : Option RWMutex :=
  if m.writer = false then some { m with readers := m.readers + 1 } else none

/-- Method `RUnlock`. -/
def RWMutex.RUnlock (m : RWMutex) : RWMutex := { m with readers := m.readers - 1 }

/-! ## The file system -/

/-- The files by name, and a count of the calls that changed the disk
(a create/truncate that went through, a write). -/
structure FileSys where
  files : String → Option Bytes
  writes : Nat

/-- The disk after the file `name` got the contents `bytes`. -/
def FileSys.put (fs : FileSys) (name : String) (bytes : Bytes) : FileSys :=
  ⟨fun p => if p = name then some bytes else fs.files p, fs.writes + 1⟩

/-- The call `os.Open(name)`: a reader over the file's bytes. `fault` is a failure
other than not-exist met by the call; `rfault` is where reading the opened
file will break off. -/
def osOpen (fs : FileSys) (name : String) (fault : Option Nat) (rfault : Option Short) :
    Except GoError Reader :=
  match fault with
  | some code => .error (.Other code)
  | none =>
    match fs.files name with
    | none => .error .ErrNotExist
    | some bytes => .ok ⟨bytes, rfault⟩

/-- The call `os.Create(name)`: the file is created, or truncated when it exists. -/
def osCreate (fs : FileSys) (name : String) (fault : Option GoError) : Except GoError FileSys :=
  match fault with
  | some e => .error e
  | none => .ok (fs.put name [])

/-- The call `f.Write(b)` on a file just created by `os.Create` (offset at its end):
the bytes, or on a fault the first `n` of them, are appended. -/
def fileWrite (fs : FileSys) (name : String) (b : Bytes) (fault : Option Short) :
    FileSys × Option GoError :=
  let old := (fs.files name).getD []
  match fault with
  | none => (fs.put name (old ++ b), none)
  | some s => (fs.put name (old ++ b.take s.n), some s.err)

/-! ## The document -/

/-- The struct `document`; `mu` is the embedded `sync.RWMutex`, `buf` the
contents of the `bytes.Buffer`. -/
structure document where
  mu : RWMutex
  path : String
  saved : Bool
  buf : Bytes
deriving DecidableEq

/-- The document built in `init`: only `buf` and `path` are set, the other
fields have their zero values. -/
def init (documentPath : String) : document :=
  { mu := RWMutex.zero, path := documentPath, saved := false, buf := [] }

/-- The failures `open` can meet: at `os.Open`, at `os.Create`, and while
`io.Copy` reads the file. -/
structure OpenFaults where
  atOpen : Option Nat
  atCreate : Option GoError
  atRead : Option Short

/-- No failure. -/
def OpenFaults.ok : OpenFaults := ⟨none, none, none⟩

/-- Method `document.open`. `none`: the call waits for the lock. Otherwise the
error returned, the document and the file system. On the error return the
deferred `Unlock` has not been registered, so it does not run. -/
def document.open (doc : document) (fs : FileSys) (env : OpenFaults) :
    Option (Option GoError × document × FileSys) :=
  match doc.mu.Lock with
  | none => none
  | some mu =>
    let doc := { doc with mu := mu }
    let opened : Except GoError (Reader × FileSys) :=
      match osOpen fs doc.path env.atOpen env.atRead with
      | .ok f => .ok (f, fs)
      | .error err =>
        if IsNotExist err then
          match osCreate fs doc.path env.atCreate with
          | .ok fs1 => .ok (⟨[], env.atRead⟩, fs1)
          | .error err1 => .error err1
        else .error err
    match opened with
    | .error err => some (some err, doc, fs)
    | .ok (f, fs1) =>
      let buf := (ioCopy doc.buf f).1
      some (none, { doc with buf := buf, mu := doc.mu.Unlock }, fs1)

/-- Method `document.save`. `none`: the call waits for the lock. Otherwise the
error returned, the document and the file system. `RUnlock` is called on
the success path only. -/
def document.save (doc : document) (fs : FileSys) (atCreate : Option GoError)
    (atWrite : Option Short) : Option (Option GoError × document × FileSys) :=
  match doc.mu.RLock with
  | none => none
  | some mu =>
    let doc := { doc with mu := mu }
    match osCreate fs doc.path atCreate with
    | .error err => some (some err, doc, fs)
    | .ok fs1 =>
      match fileWrite fs1 doc.path doc.buf atWrite with
      | (fs2, some err) => some (some err, doc, fs2)
      | (fs2, none) => some (none, { doc with saved := true, mu := doc.mu.RUnlock }, fs2)

/-- One firing of the ticker in `document.doSync`: `if !doc.saved { doc.save() }`;
the value `save` returns is dropped. -/
def document.tick (doc : document) (fs : FileSys) (atCreate : Option GoError)
    (atWrite : Option Short) : Option (document × FileSys) :=
  if !doc.saved then
    (doc.save fs atCreate atWrite).map fun r => r.2
  else some (doc, fs)

/-! ## handleBackend -/

/-- An `http.ResponseWriter`: the body written so far and, when the
transport breaks, where writing stops. -/
structure ResponseWriter where
  body : Bytes
  fault : Option Short
deriving DecidableEq

/-- Method `w.Write(b)`. -/
def ResponseWriter.Write (w : ResponseWriter) (b : Bytes) : ResponseWriter × Option GoError :=
  match w.fault with
  | none => ({ w with body := w.body ++ b }, none)
  | some s => ({ w with body := w.body ++ b.take s.n }, some s.err)

/-- An `http.Request`: its method and its body. -/
structure Request where
  Method : String
  Body : Reader
deriving DecidableEq

def MethodGet : String := "GET"
def MethodPut : String := "PUT"

/-- Function `handleBackend` on the global `doc`. `none`: the handler waits for
the lock. Errors are logged only. -/
def handleBackend (doc : document) (w : ResponseWriter) (r : Request) :
    Option (document × ResponseWriter) :=
  if r.Method = MethodGet then
    match doc.mu.RLock with
    | none => none
    | some mu =>
      let doc := { doc with mu := mu }
      let w1 := (w.Write doc.buf).1
      some ({ doc with mu := doc.mu.RUnlock }, w1)
  else if r.Method = MethodPut then
    match doc.mu.Lock with
    | none => none
    | some mu =>
      let doc := { doc with mu := mu }
      let doc := { doc with buf := [] }
      let doc := { doc with buf := (ioCopy doc.buf r.Body).1 }
      let doc := { doc with saved := false }
      some ({ doc with mu := doc.mu.Unlock }, w)
  else some (doc, w)

/-! ## doSync and the whole process -/

/-- A run of ticker firings, each with the failures its flush would meet. -/
def document.ticks (doc : document) (fs : FileSys) :
    List (Option GoError × Option Short) → Option (document × FileSys)
  | [] => some (doc, fs)
  | t :: ts =>
    match doc.tick fs t.1 t.2 with
    | none => none
    | some (doc1, fs1) => document.ticks doc1 fs1 ts

/-- Where the goroutine that runs `document.doSync` stands: before its call of
`open`, in the ticker loop, or returned after `open` failed. -/
inductive SyncState where
  | start
  | loop
  | exited
deriving DecidableEq

/-- The head of `document.doSync`: `open`, and return when it fails. -/
def document.doSyncStart (doc : document) (fs : FileSys) (env : OpenFaults) :
    Option (SyncState × document × FileSys) :=
  match doc.open fs env with
  | none => none
  | some (some _, doc1, fs1) => some (.exited, doc1, fs1)
  | some (none, doc1, fs1) => some (.loop, doc1, fs1)

/-- The process: the global `doc`, the disk, and the `doSync` goroutine. -/
structure World where
  doc : document
  fs : FileSys
  sync : SyncState

/-- The process after `init`: the document is built and `go doc.doSync()` has
been issued. -/
def boot (documentPath : String) (fs : FileSys) : World :=
  ⟨init documentPath, fs, .start⟩

/-- What can happen next: a request reaches `handleBackend`, `doSync` runs
its `open`, or the ticker fires. -/
inductive Event where
  | request (r : Request) (w : ResponseWriter)
  | load (env : OpenFaults)
  | tick (atCreate : Option GoError) (atWrite : Option Short)

/-- One event; `none` when it cannot happen or complete in this state (the
lock is not free, or `doSync` is not at that point). -/
def World.step (s : World) : Event → Option World
  | .request r w =>
    match handleBackend s.doc w r with
    | none => none
    | some (doc1, _) => some { s with doc := doc1 }
  | .load env =>
    match s.sync with
    | .start =>
      match s.doc.doSyncStart s.fs env with
      | none => none
      | some (st, doc1, fs1) => some ⟨doc1, fs1, st⟩
    | _ => none
  | .tick c w =>
    match s.sync with
    | .loop =>
      match s.doc.tick s.fs c w with
      | none => none
      | some (doc1, fs1) => some { s with doc := doc1, fs := fs1 }
    | _ => none

/-- A sequence of events. -/
def World.run (s : World) : List Event → Option World
  | [] => some s
  | e :: es =>
    match s.step e with
    | none => none
    | some s1 => World.run s1 es

/-- An event that is a tick or a request other than a PUT. -/
def Event.quiet : Event → Bool
  | .request r _ => r.Method != MethodPut
  | .load _ => false
  | .tick _ _ => true

/-- The facts kept by every event of a process started on `path`: the path
stays, `saved` is false as long as `doSync` has not run `open`, and a saved
document has its buffer in its file. -/
def World.Inv (path : String) (s : World) : Prop :=
  s.doc.path = path ∧ (s.sync = .start → s.doc.saved = false) ∧
    (s.doc.saved = true → s.fs.files s.doc.path = some s.doc.buf)

/-! ## Sample states -/

/-- A document that holds old contents and is marked saved. -/
def docOld : document := ⟨RWMutex.zero, "api-spec.yaml", true, [1, 2, 3]⟩

/-- The document `docOld` after a PUT with body `[7, 8]`. -/
def docPut : document := ⟨RWMutex.zero, "api-spec.yaml", false, [7, 8]⟩

/-- The document `docPut` after a flush. -/
def docFlushed : document := ⟨RWMutex.zero, "api-spec.yaml", true, [7, 8]⟩

/-- A disk without files. -/
def diskEmpty : FileSys := ⟨fun _ => none, 0⟩

/-- The disk `diskEmpty` after `docPut` was flushed: created, then written. -/
def diskFlushed : FileSys :=
  (diskEmpty.put "api-spec.yaml" []).put "api-spec.yaml" [7, 8]

/-- The disk `diskEmpty` after a load created the file and `docPut` was
flushed. -/
def diskLoadedFlushed : FileSys :=
  ((diskEmpty.put "api-spec.yaml" []).put "api-spec.yaml" []).put "api-spec.yaml" [7, 8]

/-- A disk whose file holds `[2]`. -/
def diskTwo : FileSys := diskEmpty.put "api-spec.yaml" [2]

/-! ## Lemmas on the single operations -/

theorem RWMutex.RLock_of_free (m : RWMutex) (h : m.writer = false) :
    m.RLock = some ⟨false, m.readers + 1⟩ := by
  cases m with
  | mk wr rd =>
    simp only at h
    subst h
    simp [RWMutex.RLock]

theorem RWMutex.RLock_eq_some {m m1 : RWMutex} (h : m.RLock = some m1) :
    m.writer = false ∧ m1 = ⟨false, m.readers + 1⟩ := by
  cases m with
  | mk wr rd =>
    cases wr with
    | true => simp [RWMutex.RLock] at h
    | false =>
      simp [RWMutex.RLock] at h
      exact ⟨rfl, h.symm⟩

theorem RWMutex.Lock_eq_some {m m1 : RWMutex} (h : m.Lock = some m1) :
    m = RWMutex.zero ∧ m1 = ⟨true, 0⟩ := by
  cases m with
  | mk wr rd =>
    unfold RWMutex.Lock at h
    split at h
    · rename_i hfree
      simp only at hfree
      obtain ⟨h1, h2⟩ := hfree
      subst h1
      subst h2
      simp at h
      exact ⟨rfl, h.symm⟩
    · simp at h

theorem MethodPut_ne_MethodGet : MethodPut ≠ MethodGet := by decide

/-- What `save` does once the read lock is granted, by the failures met. -/
theorem document.save_of_free (doc : document) (fs : FileSys) (c : Option GoError)
    (w : Option Short) (h : doc.mu.writer = false) :
    ∃ e d1 fs1, doc.save fs c w = some (e, d1, fs1) ∧ d1.buf = doc.buf ∧
      d1.path = doc.path ∧ d1.mu.writer = false ∧
      (e = none → d1.saved = true) ∧ (e ≠ none → d1.saved = doc.saved) := by
  unfold document.save
  rw [RWMutex.RLock_of_free doc.mu h]
  cases c with
  | some e => exact ⟨some e, _, _, rfl, rfl, rfl, rfl, by simp, by simp⟩
  | none =>
    cases w with
    | some s => exact ⟨some s.err, _, _, rfl, rfl, rfl, rfl, by simp, by simp⟩
    | none => exact ⟨none, _, _, rfl, rfl, rfl, rfl, by simp, by simp⟩

/-- A tick completes when no writer holds the lock; it leaves the buffer and
the path alone and no writer holds the lock afterwards. -/
theorem document.tick_of_free (doc : document) (fs : FileSys) (c : Option GoError)
    (w : Option Short) (h : doc.mu.writer = false) :
    ∃ d1 fs1, doc.tick fs c w = some (d1, fs1) ∧ d1.buf = doc.buf ∧
      d1.path = doc.path ∧ d1.mu.writer = false := by
  unfold document.tick
  split
  · obtain ⟨e, d1, fs1, hs, hb, hp, hm, _, _⟩ := document.save_of_free doc fs c w h
    exact ⟨d1, fs1, by simp [hs], hb, hp, hm⟩
  · exact ⟨doc, fs, rfl, rfl, rfl, h⟩

theorem document.ticks_of_free (ts : List (Option GoError × Option Short)) :
    ∀ (doc : document) (fs : FileSys), doc.mu.writer = false →
      ∃ d1 fs1, doc.ticks fs ts = some (d1, fs1) ∧ d1.buf = doc.buf ∧
        d1.path = doc.path ∧ d1.mu.writer = false := by
  induction ts with
  | nil => intro doc fs h; exact ⟨doc, fs, rfl, rfl, rfl, h⟩
  | cons t ts ih =>
    intro doc fs h
    obtain ⟨d1, fs1, ht, hb, hp, hm⟩ := document.tick_of_free doc fs t.1 t.2 h
    obtain ⟨d2, fs2, hts, hb2, hp2, hm2⟩ := ih d1 fs1 hm
    refine ⟨d2, fs2, ?_, hb2.trans hb, hp2.trans hp, hm2⟩
    simp [document.ticks, ht, hts]

/-- The GET branch when no writer holds the lock: the buffer is handed to
`w.Write`, the document is as before. -/
theorem handleBackend_get_of_free (doc : document) (w : ResponseWriter) (body : Reader)
    (h : doc.mu.writer = false) :
    handleBackend doc w ⟨MethodGet, body⟩ = some (doc, (w.Write doc.buf).1) := by
  unfold handleBackend
  rw [if_pos rfl, RWMutex.RLock_of_free doc.mu h]
  cases doc with
  | mk mu path saved buf =>
    cases mu with
    | mk wr rd =>
      simp only at h
      subst h
      simp [RWMutex.RUnlock]

/-- The PUT branch: it completes exactly from the free lock, and then the
buffer is what the body yields, `saved` is false and the lock is free. -/
theorem handleBackend_put_eq_some {doc doc1 : document} {w w1 : ResponseWriter} {body : Reader}
    (h : handleBackend doc w ⟨MethodPut, body⟩ = some (doc1, w1)) :
    doc.mu = RWMutex.zero ∧
      doc1 = { mu := RWMutex.zero, path := doc.path, saved := false, buf := body.yield } ∧
      w1 = w := by
  unfold handleBackend at h
  rw [if_neg MethodPut_ne_MethodGet, if_pos rfl] at h
  cases hl : doc.mu.Lock with
  | none => simp [hl] at h
  | some mu =>
    obtain ⟨h0, h1⟩ := RWMutex.Lock_eq_some hl
    subst h1
    simp [hl, ioCopy, RWMutex.Unlock] at h
    exact ⟨h0, h.1.symm, h.2.symm⟩

/-- A `save` that returns no error: nothing failed, the file holds the
buffer, `saved` is set and the lock is as before. -/
theorem document.save_eq_ok {doc d1 : document} {fs fs1 : FileSys} {c : Option GoError}
    {w : Option Short} (h : doc.save fs c w = some (none, d1, fs1)) :
    c = none ∧ w = none ∧ d1 = { doc with saved := true } ∧
      fs1.files doc.path = some doc.buf ∧ (∀ p, p ≠ doc.path → fs1.files p = fs.files p) ∧
      fs1.writes = fs.writes + 2 ∧ doc.mu.writer = false := by
  unfold document.save at h
  cases hl : doc.mu.RLock with
  | none => simp [hl] at h
  | some mu =>
    obtain ⟨hw, hmu⟩ := RWMutex.RLock_eq_some hl
    subst hmu
    cases c with
    | some e => simp [hl, osCreate] at h
    | none =>
      cases w with
      | some s => simp [hl, osCreate, fileWrite, FileSys.put] at h
      | none =>
        simp only [hl, osCreate, fileWrite, FileSys.put, Option.some.injEq, Prod.mk.injEq, true_and] at h
        obtain ⟨hd, hfs⟩ := h
        subst hd
        subst hfs
        refine ⟨rfl, rfl, ?_, by simp, ?_, rfl, hw⟩
        · cases doc with
          | mk mu path saved buf =>
            cases mu with
            | mk wr rd =>
              simp only at hw
              subst hw
              simp [RWMutex.RUnlock]
        · intro p hp
          simp [hp]

/-- A `save` that returns an error: it failed at `os.Create` (the disk is
untouched) or at `f.Write`; the document differs only by the read lock
still held. -/
theorem document.save_eq_error {doc d1 : document} {fs fs1 : FileSys} {c : Option GoError}
    {w : Option Short} {err : GoError} (h : doc.save fs c w = some (some err, d1, fs1)) :
    d1 = { doc with mu := ⟨false, doc.mu.readers + 1⟩ } ∧ doc.mu.writer = false ∧
      ((c = some err ∧ fs1 = fs) ∨ (c = none ∧ ∃ s, w = some s ∧ s.err = err)) := by
  unfold document.save at h
  cases hl : doc.mu.RLock with
  | none => simp [hl] at h
  | some mu =>
    obtain ⟨hw, hmu⟩ := RWMutex.RLock_eq_some hl
    subst hmu
    cases c with
    | some e =>
      simp only [hl, osCreate, Option.some.injEq, Prod.mk.injEq] at h
      obtain ⟨he, hd, hfs⟩ := h
      exact ⟨hd.symm, hw, Or.inl ⟨by rw [he], hfs.symm⟩⟩
    | none =>
      cases w with
      | none => simp [hl, osCreate, fileWrite, FileSys.put] at h
      | some s =>
        simp only [hl, osCreate, fileWrite, FileSys.put, Option.some.injEq, Prod.mk.injEq] at h
        obtain ⟨he, hd, _⟩ := h
        exact ⟨hd.symm, hw, Or.inr ⟨rfl, s, rfl, he⟩⟩

/-- Whatever `open` returns, it has not touched `saved` or `path`. -/
theorem document.open_saved {doc d1 : document} {fs fs1 : FileSys} {env : OpenFaults}
    {e : Option GoError} (h : doc.open fs env = some (e, d1, fs1)) :
    d1.saved = doc.saved ∧ d1.path = doc.path := by
  unfold document.open at h
  cases hl : doc.mu.Lock with
  | none => simp [hl] at h
  | some mu =>
    simp only [hl] at h
    split at h
    · simp only [Option.some.injEq, Prod.mk.injEq] at h
      obtain ⟨_, hd, _⟩ := h
      subst hd
      exact ⟨rfl, rfl⟩
    · simp only [Option.some.injEq, Prod.mk.injEq] at h
      obtain ⟨_, hd, _⟩ := h
      subst hd
      exact ⟨rfl, rfl⟩

/-- Whatever `handleBackend` does, it leaves `path` alone, and `saved` can
only go to false; a request that is not a PUT leaves the document as it
was. -/
theorem handleBackend_eq_some {doc doc1 : document} {w w1 : ResponseWriter} {r : Request}
    (h : handleBackend doc w r = some (doc1, w1)) :
    doc1.path = doc.path ∧ (doc1.saved = true → doc1 = doc) ∧
      (r.Method ≠ MethodPut → doc1 = doc) := by
  by_cases hg : r.Method = MethodGet
  · have hr : r = ⟨MethodGet, r.Body⟩ := by rw [← hg]
    unfold handleBackend at h
    rw [if_pos hg] at h
    cases hl : doc.mu.RLock with
    | none => simp [hl] at h
    | some mu =>
      obtain ⟨hw, _⟩ := RWMutex.RLock_eq_some hl
      have h2 := handleBackend_get_of_free doc w r.Body hw
      unfold handleBackend at h2
      rw [if_pos rfl] at h2
      rw [h2] at h
      simp only [Option.some.injEq, Prod.mk.injEq] at h
      rw [← h.1]
      exact ⟨rfl, fun _ => rfl, fun _ => rfl⟩
  · by_cases hp : r.Method = MethodPut
    · have hr : r = ⟨MethodPut, r.Body⟩ := by rw [← hp]
      rw [hr] at h
      obtain ⟨_, h1, _⟩ := handleBackend_put_eq_some h
      rw [h1]
      exact ⟨rfl, fun hs => by simp at hs, fun hn => absurd hp hn⟩
    · unfold handleBackend at h
      rw [if_neg hg, if_neg hp] at h
      simp only [Option.some.injEq, Prod.mk.injEq] at h
      rw [← h.1]
      exact ⟨rfl, fun _ => rfl, fun _ => rfl⟩

/-- A request that is not a PUT completes when no writer holds the lock and
leaves the document as it was. -/
theorem handleBackend_of_not_put (doc : document) (w : ResponseWriter) (r : Request)
    (h : doc.mu.writer = false) (hr : r.Method ≠ MethodPut) :
    ∃ w1, handleBackend doc w r = some (doc, w1) := by
  by_cases hg : r.Method = MethodGet
  · have hreq : r = ⟨MethodGet, r.Body⟩ := by rw [← hg]
    rw [hreq]
    exact ⟨_, handleBackend_get_of_free doc w r.Body h⟩
  · refine ⟨w, ?_⟩
    unfold handleBackend
    rw [if_neg hg, if_neg hr]

theorem World.step_inv {path : String} {s s1 : World} {e : Event} (hinv : World.Inv path s)
    (h : s.step e = some s1) : World.Inv path s1 := by
  obtain ⟨hpath, hstart, hfile⟩ := hinv
  cases e with
  | request r w =>
    simp only [World.step] at h
    cases hh : handleBackend s.doc w r with
    | none => simp [hh] at h
    | some res =>
      obtain ⟨d1, w1⟩ := res
      simp only [hh, Option.some.injEq] at h
      subst h
      obtain ⟨hp, hsv, _⟩ := handleBackend_eq_some hh
      refine ⟨hp.trans hpath, ?_, ?_⟩
      · intro hst
        cases hd : d1.saved with
        | false => rfl
        | true =>
          have := hsv hd
          rw [this] at hd
          rw [hstart hst] at hd
          exact absurd hd (by simp)
      · intro hd
        have hsame := hsv hd
        simp only
        rw [hsame]
        rw [hsame] at hd
        exact hfile hd
  | load env =>
    simp only [World.step] at h
    cases hst : s.sync with
    | loop => simp [hst] at h
    | exited => simp [hst] at h
    | start =>
      simp only [hst, document.doSyncStart] at h
      cases ho : s.doc.open s.fs env with
      | none => simp [ho] at h
      | some res =>
        obtain ⟨e, d1, fs1⟩ := res
        obtain ⟨hsv, hp⟩ := document.open_saved ho
        have hfalse : d1.saved = false := by rw [hsv]; exact hstart hst
        cases e with
        | none =>
          simp only [ho, Option.some.injEq] at h
          subst h
          exact ⟨hp.trans hpath, by simp, fun hd => by simp [hfalse] at hd⟩
        | some err =>
          simp only [ho, Option.some.injEq] at h
          subst h
          exact ⟨hp.trans hpath, by simp, fun hd => by simp [hfalse] at hd⟩
  | tick c w =>
    simp only [World.step] at h
    cases hst : s.sync with
    | start => simp [hst] at h
    | exited => simp [hst] at h
    | loop =>
      simp only [hst] at h
      cases ht : s.doc.tick s.fs c w with
      | none => simp [ht] at h
      | some res =>
        obtain ⟨d1, fs1⟩ := res
        simp only [ht, Option.some.injEq] at h
        subst h
        unfold document.tick at ht
        cases hsaved : s.doc.saved with
        | true =>
          simp only [hsaved, Bool.not_true, Bool.false_eq_true, if_false, Option.some.injEq,
            Prod.mk.injEq] at ht
          obtain ⟨hd, hf⟩ := ht
          subst hd
          subst hf
          exact ⟨hpath, by simp [hst], hfile⟩
        | false =>
          simp only [hsaved, Bool.not_false, if_true] at ht
          cases hsave : s.doc.save s.fs c w with
          | none => simp [hsave] at ht
          | some r =>
            obtain ⟨e, d, f⟩ := r
            simp only [hsave, Option.map_some', Option.some.injEq, Prod.mk.injEq] at ht
            obtain ⟨hd, hf⟩ := ht
            subst hd
            subst hf
            cases e with
            | some err =>
              obtain ⟨hd, _, _⟩ := document.save_eq_error hsave
              subst hd
              exact ⟨hpath, by simp [hst], fun hd => by simp [hsaved] at hd⟩
            | none =>
              obtain ⟨_, _, hd, hfl, _, _, _⟩ := document.save_eq_ok hsave
              subst hd
              exact ⟨hpath, by simp [hst], fun _ => hfl⟩

theorem World.run_inv {path : String} (evs : List Event) :
    ∀ {s s1 : World}, World.Inv path s → s.run evs = some s1 → World.Inv path s1 := by
  induction evs with
  | nil =>
    intro s s1 hinv h
    simp only [World.run, Option.some.injEq] at h
    subst h
    exact hinv
  | cons e es ih =>
    intro s s1 hinv h
    simp only [World.run] at h
    cases hs : s.step e with
    | none => simp [hs] at h
    | some s2 =>
      simp only [hs] at h
      exact ih (World.step_inv hinv hs) h

theorem World.boot_inv (path : String) (fs : FileSys) : World.Inv path (boot path fs) :=
  ⟨rfl, fun _ => rfl, fun h => by simp [boot, init] at h⟩

/-- A quiet event in the ticker loop of a saved document whose lock no
writer holds changes nothing. -/
theorem World.step_quiet (s : World) (e : Event) (hsaved : s.doc.saved = true)
    (hfree : s.doc.mu.writer = false) (hloop : s.sync = .loop) (hq : e.quiet = true) :
    s.step e = some s := by
  cases s with
  | mk doc fs sync =>
    simp only at hsaved hfree hloop
    subst hloop
    cases e with
    | load env => simp [Event.quiet] at hq
    | tick c w => simp [World.step, document.tick, hsaved]
    | request r w =>
      have hr : r.Method ≠ MethodPut := by simpa [Event.quiet] using hq
      obtain ⟨w1, hw⟩ := handleBackend_of_not_put doc w r hfree hr
      simp [World.step, hw]

theorem World.run_quiet (evs : List Event) (s : World) (hsaved : s.doc.saved = true)
    (hfree : s.doc.mu.writer = false) (hloop : s.sync = .loop)
    (hq : ∀ e ∈ evs, e.quiet = true) : s.run evs = some s := by
  induction evs with
  | nil => rfl
  | cons e es ih =>
    simp only [World.run]
    rw [World.step_quiet s e hsaved hfree hloop (hq e (List.mem_cons_self e es))]
    exact ih (fun e1 he1 => hq e1 (List.mem_cons_of_mem e he1))

/-! ## The claims -/

/-- C1 (round trip). From any document state (any prior contents, any
`saved`), when the PUT branch of `handleBackend` runs with a body that reads
completely as `body`, the buffer is exactly `body` (the prior contents are
gone); and after any run of ticks, whatever their flushes meet, the GET
branch completes and writes exactly `body` to its response writer. -/
theorem handleBackend_put_get_roundtrip (doc : document) (w : ResponseWriter) (body : Bytes)
    (doc1 : document) (w1 : ResponseWriter)
    (hput : handleBackend doc w ⟨MethodPut, ⟨body, none⟩⟩ = some (doc1, w1)) :
    doc1.buf = body ∧
    ∀ (fs : FileSys) (ts : List (Option GoError × Option Short)),
      ∃ doc2 fs2, doc1.ticks fs ts = some (doc2, fs2) ∧
        ∀ (out : ResponseWriter) (rbody : Reader), out.fault = none →
          ∃ doc3, handleBackend doc2 out ⟨MethodGet, rbody⟩
            = some (doc3, ⟨out.body ++ body, none⟩) ∧ doc3.buf = body := by
  obtain ⟨_, h1, _⟩ := handleBackend_put_eq_some hput
  have hb : doc1.buf = body := by rw [h1]; rfl
  have hm : doc1.mu.writer = false := by rw [h1]; rfl
  refine ⟨hb, ?_⟩
  intro fs ts
  obtain ⟨d2, fs2, hts, hb2, _, hm2⟩ := document.ticks_of_free ts doc1 fs hm
  refine ⟨d2, fs2, hts, ?_⟩
  intro out rbody hout
  refine ⟨d2, ?_, hb2.trans hb⟩
  rw [handleBackend_get_of_free d2 out rbody hm2, hb2, hb]
  cases out with
  | mk ob ofault =>
    simp only at hout
    subst hout
    rfl

/-- C1, at a document that holds old contents and is marked saved. -/
theorem handleBackend_put_get_roundtrip_witness :
    handleBackend docOld ⟨[], none⟩ ⟨MethodPut, ⟨[7, 8], none⟩⟩ = some (docPut, ⟨[], none⟩) ∧
    (docPut.buf = [7, 8] ∧
    ∀ (fs : FileSys) (ts : List (Option GoError × Option Short)),
      ∃ doc2 fs2, docPut.ticks fs ts = some (doc2, fs2) ∧
        ∀ (out : ResponseWriter) (rbody : Reader), out.fault = none →
          ∃ doc3, handleBackend doc2 out ⟨MethodGet, rbody⟩
            = some (doc3, ⟨out.body ++ [7, 8], none⟩) ∧ doc3.buf = [7, 8]) :=
  ⟨by decide, handleBackend_put_get_roundtrip docOld ⟨[], none⟩ [7, 8] docPut ⟨[], none⟩
    (by decide)⟩

/-- C2 (persistence across restart). When a PUT with body `body` has run, the
next tick, with `os.Create` and `f.Write` going through, completes, marks
the document saved and leaves `body` in the file at the path; a fresh
document for the same path, loaded by `open` from that file system with
`os.Open` and the read going through, holds `body`, and its first GET
writes exactly `body`. Moreover a tick after the PUT leaves the document
marked saved only when neither `os.Create` nor `f.Write` failed, and then
its result is the one above. -/
theorem put_flush_restart_get (doc : document) (w : ResponseWriter) (body : Bytes)
    (doc1 : document) (w1 : ResponseWriter) (fs : FileSys)
    (hput : handleBackend doc w ⟨MethodPut, ⟨body, none⟩⟩ = some (doc1, w1)) :
    doc1.tick fs none none
        = some ({ doc1 with saved := true }, (fs.put doc.path []).put doc.path body) ∧
    ((fs.put doc.path []).put doc.path body).files doc.path = some body ∧
    (∀ (atCreate : Option GoError),
      (init doc.path).open ((fs.put doc.path []).put doc.path body) ⟨none, atCreate, none⟩
          = some (none, ⟨RWMutex.zero, doc.path, false, body⟩,
              (fs.put doc.path []).put doc.path body) ∧
        ∀ (out : ResponseWriter) (rbody : Reader), out.fault = none →
          handleBackend ⟨RWMutex.zero, doc.path, false, body⟩ out ⟨MethodGet, rbody⟩
            = some (⟨RWMutex.zero, doc.path, false, body⟩, ⟨out.body ++ body, none⟩)) ∧
    ∀ (c : Option GoError) (wr : Option Short) (doc2 : document) (fs2 : FileSys),
      doc1.tick fs c wr = some (doc2, fs2) → doc2.saved = true →
        c = none ∧ wr = none ∧ doc2 = { doc1 with saved := true } ∧
          fs2 = (fs.put doc.path []).put doc.path body := by
  obtain ⟨_, h1, _⟩ := handleBackend_put_eq_some hput
  have hs1 : doc1.saved = false := by rw [h1]
  have htick : doc1.tick fs none none
      = some ({ doc1 with saved := true }, (fs.put doc.path []).put doc.path body) := by
    rw [h1]
    simp [document.tick, document.save, RWMutex.RLock, RWMutex.zero, osCreate, fileWrite,
      FileSys.put, RWMutex.RUnlock, Reader.yield]
  have hfile : ((fs.put doc.path []).put doc.path body).files doc.path = some body := by
    simp [FileSys.put]
  refine ⟨htick, hfile, ?_, ?_⟩
  · intro atCreate
    constructor
    · simp [document.open, init, RWMutex.Lock, RWMutex.zero, osOpen, hfile, ioCopy,
        Reader.yield, RWMutex.Unlock]
    · intro out rbody hout
      rw [handleBackend_get_of_free _ out rbody rfl]
      cases out with
      | mk ob ofault =>
        simp only at hout
        subst hout
        rfl
  · intro c wr doc2 fs2 ht hflush
    have ht2 := ht
    unfold document.tick at ht2
    rw [hs1] at ht2
    simp only [Bool.not_false, if_true] at ht2
    cases hsave : doc1.save fs c wr with
    | none => simp [hsave] at ht2
    | some r =>
      obtain ⟨e, d, f⟩ := r
      simp only [hsave, Option.map_some', Option.some.injEq, Prod.mk.injEq] at ht2
      obtain ⟨hd, hf⟩ := ht2
      subst hd
      subst hf
      cases e with
      | some err =>
        obtain ⟨hd, _, _⟩ := document.save_eq_error hsave
        rw [hd] at hflush
        simp [hs1] at hflush
      | none =>
        obtain ⟨hc, hw, _, _, _, _, _⟩ := document.save_eq_ok hsave
        subst hc
        subst hw
        rw [htick] at ht
        simp only [Option.some.injEq, Prod.mk.injEq] at ht
        exact ⟨rfl, rfl, ht.1.symm, ht.2.symm⟩

/-- C2, at a document with old contents and an empty disk. -/
theorem put_flush_restart_get_witness :
    docPut.tick diskEmpty none none = some ({ docPut with saved := true }, diskFlushed) ∧
    diskFlushed.files "api-spec.yaml" = some [7, 8] ∧
    (∀ (atCreate : Option GoError),
      (init "api-spec.yaml").open diskFlushed ⟨none, atCreate, none⟩
          = some (none, ⟨RWMutex.zero, "api-spec.yaml", false, [7, 8]⟩, diskFlushed) ∧
        ∀ (out : ResponseWriter) (rbody : Reader), out.fault = none →
          handleBackend ⟨RWMutex.zero, "api-spec.yaml", false, [7, 8]⟩ out ⟨MethodGet, rbody⟩
            = some (⟨RWMutex.zero, "api-spec.yaml", false, [7, 8]⟩,
                ⟨out.body ++ [7, 8], none⟩)) ∧
    ∀ (c : Option GoError) (wr : Option Short) (doc2 : document) (fs2 : FileSys),
      docPut.tick diskEmpty c wr = some (doc2, fs2) → doc2.saved = true →
        c = none ∧ wr = none ∧ doc2 = { docPut with saved := true } ∧ fs2 = diskFlushed :=
  put_flush_restart_get docOld ⟨[], none⟩ [7, 8] docPut ⟨[], none⟩ diskEmpty (by decide)

/-- C3 (clean implies on disk). In every state the process reaches from its
start on `path` with any disk, by any run of requests, the `open` of
`doSync` and ticks, with any failures: when the document is marked saved,
the file at `path` exists and holds exactly the buffer. -/
theorem saved_implies_file_is_buffer (path : String) (fs : FileSys) (evs : List Event)
    (s : World) (hrun : (boot path fs).run evs = some s) (hsaved : s.doc.saved = true) :
    s.doc.path = path ∧ s.fs.files path = some s.doc.buf := by
  obtain ⟨hp, _, hfile⟩ := World.run_inv evs (World.boot_inv path fs) hrun
  exact ⟨hp, by rw [← hp]; exact hfile hsaved⟩

/-- C3, at the run: load, PUT of `[7, 8]`, tick. -/
theorem saved_implies_file_is_buffer_witness :
    (⟨docFlushed, diskLoadedFlushed, .loop⟩ : World).doc.path = "api-spec.yaml" ∧
      diskLoadedFlushed.files "api-spec.yaml" = some [7, 8] :=
  saved_implies_file_is_buffer "api-spec.yaml" diskEmpty
    [.load OpenFaults.ok, .request ⟨MethodPut, ⟨[7, 8], none⟩⟩ ⟨[], none⟩, .tick none none]
    ⟨docFlushed, diskLoadedFlushed, .loop⟩ (by rfl) (by rfl)

/-- C5 (missing file on load). For the document built by `init` on a path
that the disk does not hold, when `os.Create` goes through: `open` returns
no error, the buffer is empty, the lock is free again, and the disk holds
an empty file at the path and is otherwise as before. -/
theorem open_missing_file (path : String) (fs : FileSys) (atRead : Option Short)
    (hmissing : fs.files path = none) :
    (init path).open fs ⟨none, none, atRead⟩
        = some (none, ⟨RWMutex.zero, path, false, []⟩, fs.put path []) ∧
      (fs.put path []).files path = some [] ∧
      ∀ p, p ≠ path → (fs.put path []).files p = fs.files p := by
  refine ⟨?_, by simp [FileSys.put], fun p hp => by simp [FileSys.put, hp]⟩
  cases atRead with
  | none =>
    simp [document.open, init, RWMutex.Lock, RWMutex.zero, osOpen, hmissing, IsNotExist,
      osCreate, ioCopy, Reader.yield, RWMutex.Unlock]
  | some s =>
    simp [document.open, init, RWMutex.Lock, RWMutex.zero, osOpen, hmissing, IsNotExist,
      osCreate, ioCopy, Reader.yield, RWMutex.Unlock]

/-- C5, on the disk without files. -/
theorem open_missing_file_witness :
    (init "api-spec.yaml").open diskEmpty ⟨none, none, none⟩
        = some (none, ⟨RWMutex.zero, "api-spec.yaml", false, []⟩,
            diskEmpty.put "api-spec.yaml" []) ∧
      (diskEmpty.put "api-spec.yaml" []).files "api-spec.yaml" = some [] ∧
      ∀ p, p ≠ "api-spec.yaml" → (diskEmpty.put "api-spec.yaml" []).files p = diskEmpty.files p :=
  open_missing_file "api-spec.yaml" diskEmpty none (by rfl)

/-- C6 (dirty gates flush). From any document state, when `save` returns no
error the document is marked saved; and from then on, in the ticker loop,
every run of ticks and of requests other than PUT completes and leaves the
document and the disk (its files and its count of writes) exactly as the
flush left them. -/
theorem save_then_quiet_events_idle (doc : document) (fs : FileSys) (c : Option GoError)
    (w : Option Short) (doc1 : document) (fs1 : FileSys)
    (hsave : doc.save fs c w = some (none, doc1, fs1)) :
    doc1.saved = true ∧
      (∀ c1 w1, doc1.tick fs1 c1 w1 = some (doc1, fs1)) ∧
      ∀ evs : List Event, (∀ e ∈ evs, e.quiet = true) →
        (⟨doc1, fs1, .loop⟩ : World).run evs = some ⟨doc1, fs1, .loop⟩ := by
  obtain ⟨_, _, hd, _, _, _, hfree⟩ := document.save_eq_ok hsave
  have hs : doc1.saved = true := by rw [hd]
  have hm : doc1.mu.writer = false := by rw [hd]; exact hfree
  refine ⟨hs, ?_, ?_⟩
  · intro c1 w1
    simp [document.tick, hs]
  · intro evs hq
    exact World.run_quiet evs ⟨doc1, fs1, .loop⟩ hs hm rfl hq

/-- C6, at the flush of `docPut` to the empty disk. -/
theorem save_then_quiet_events_idle_witness :
    docFlushed.saved = true ∧
      (∀ c1 w1, docFlushed.tick diskFlushed c1 w1 = some (docFlushed, diskFlushed)) ∧
      ∀ evs : List Event, (∀ e ∈ evs, e.quiet = true) →
        (⟨docFlushed, diskFlushed, .loop⟩ : World).run evs
          = some ⟨docFlushed, diskFlushed, .loop⟩ :=
  save_then_quiet_events_idle docPut diskEmpty none none docFlushed diskFlushed (by rfl)

/-- C7 (flush failure keeps dirty). For every document that is not marked
saved: when `save` gets the read lock and meets a failure at `os.Create` or
at `f.Write`, it returns with an error; and whenever `save` returns an
error, that error is the one met at `os.Create` or else the one met at
`f.Write`, the buffer is unchanged and the document is still not marked
saved, so that the next tick calls `save` again, and that call gets the
read lock. -/
theorem save_failure_keeps_dirty (doc : document) (fs : FileSys) (c : Option GoError)
    (w : Option Short) (hdirty : doc.saved = false) :
    (doc.mu.writer = false → (c ≠ none ∨ w ≠ none) →
      ∃ err d1 fs1, doc.save fs c w = some (some err, d1, fs1)) ∧
    ∀ err d1 fs1, doc.save fs c w = some (some err, d1, fs1) →
      (c = some err ∨ (c = none ∧ ∃ s, w = some s ∧ s.err = err)) ∧
      d1.buf = doc.buf ∧ d1.path = doc.path ∧ d1.saved = false ∧
      ∀ fs2 c2 w2, d1.tick fs2 c2 w2 = (d1.save fs2 c2 w2).map (fun r => r.2) ∧
        (d1.save fs2 c2 w2).isSome = true := by
  constructor
  · intro hfree hfail
    unfold document.save
    rw [RWMutex.RLock_of_free doc.mu hfree]
    cases c with
    | some e => exact ⟨e, _, _, rfl⟩
    | none =>
      cases w with
      | some s => exact ⟨s.err, _, _, rfl⟩
      | none => simp at hfail
  · intro err d1 fs1 hsave
    obtain ⟨hd, _, hwhere⟩ := document.save_eq_error hsave
    have hs : d1.saved = false := by rw [hd]; exact hdirty
    refine ⟨?_, by rw [hd], by rw [hd], hs, ?_⟩
    · cases hwhere with
      | inl h => exact Or.inl h.1
      | inr h => exact Or.inr h
    · intro fs2 c2 w2
      have hfree : d1.mu.writer = false := by rw [hd]
      obtain ⟨e, d2, fs3, hsave2, _⟩ := document.save_of_free d1 fs2 c2 w2 hfree
      constructor
      · simp [document.tick, hs]
      · simp [hsave2]

/-- C7, at `docPut` with `os.Create` failing with the error `Other 13`: `save` returns
that error and the document is as dirty as before. -/
theorem save_failure_keeps_dirty_witness :
    docPut.save diskEmpty (some (.Other 13)) none
        = some (some (.Other 13), { docPut with mu := ⟨false, 1⟩ }, diskEmpty) ∧
      ((some (GoError.Other 13) = some (GoError.Other 13) ∨
          ((some (GoError.Other 13) : Option GoError) = none ∧
            ∃ s, (none : Option Short) = some s ∧ s.err = GoError.Other 13)) ∧
        ({ docPut with mu := ⟨false, 1⟩ } : document).buf = docPut.buf ∧
        ({ docPut with mu := ⟨false, 1⟩ } : document).path = docPut.path ∧
        ({ docPut with mu := ⟨false, 1⟩ } : document).saved = false ∧
        ∀ fs2 c2 w2,
          ({ docPut with mu := ⟨false, 1⟩ } : document).tick fs2 c2 w2
              = (({ docPut with mu := ⟨false, 1⟩ } : document).save fs2 c2 w2).map
                  (fun r => r.2) ∧
            (({ docPut with mu := ⟨false, 1⟩ } : document).save fs2 c2 w2).isSome = true) :=
  ⟨by rfl,
    (save_failure_keeps_dirty docPut diskEmpty (some (.Other 13)) none (by rfl)).2
      (.Other 13) { docPut with mu := ⟨false, 1⟩ } diskEmpty (by rfl)⟩

/-- C10, as the code has it. The document built by `init` has an empty
buffer and is not marked saved; `open` leaves the mark alone; so the first
tick after a load that returned no error, with no PUT in between, calls
`save`, and when nothing fails that call creates and writes the file with
the loaded buffer and marks the document saved. -/
theorem init_dirty_first_tick_saves (path : String) (fs : FileSys) (env : OpenFaults)
    (doc1 : document) (fs1 : FileSys)
    (hload : (init path).open fs env = some (none, doc1, fs1)) :
    (init path).buf = [] ∧ (init path).saved = false ∧ doc1.saved = false ∧
      (∀ c w, doc1.tick fs1 c w = (doc1.save fs1 c w).map (fun r => r.2)) ∧
      ∃ fs2, doc1.tick fs1 none none = some ({ doc1 with saved := true }, fs2) ∧
        fs2.files path = some doc1.buf ∧ fs2.writes = fs1.writes + 2 := by
  obtain ⟨hs, hp⟩ := document.open_saved hload
  have hs1 : doc1.saved = false := by rw [hs]; rfl
  have hp1 : doc1.path = path := by rw [hp]; rfl
  have hfree : doc1.mu.writer = false := by
    unfold document.open at hload
    cases hl : (init path).mu.Lock with
    | none => simp [hl] at hload
    | some mu =>
      simp only [hl] at hload
      split at hload
      · simp at hload
      · simp only [Option.some.injEq, Prod.mk.injEq, true_and] at hload
        rw [← hload.1]
        rfl
  refine ⟨rfl, rfl, hs1, fun c w => by simp [document.tick, hs1], ?_⟩
  obtain ⟨e, d2, fs2, hsave, _⟩ := document.save_of_free doc1 fs1 none none hfree
  cases e with
  | some err =>
    obtain ⟨_, _, hwhere⟩ := document.save_eq_error hsave
    cases hwhere with
    | inl h => simp at h
    | inr h => simp at h
  | none =>
    obtain ⟨_, _, hd, hfile, _, hwr, _⟩ := document.save_eq_ok hsave
    refine ⟨fs2, ?_, by rw [← hp1]; exact hfile, hwr⟩
    simp [document.tick, hs1, hsave, hd]

/-- C10 as amended, at the load of a file that holds `[2]`. -/
theorem init_dirty_first_tick_saves_witness :
    (init "api-spec.yaml").buf = [] ∧ (init "api-spec.yaml").saved = false ∧
      (⟨RWMutex.zero, "api-spec.yaml", false, [2]⟩ : document).saved = false ∧
      (∀ c w, (⟨RWMutex.zero, "api-spec.yaml", false, [2]⟩ : document).tick diskTwo c w
        = ((⟨RWMutex.zero, "api-spec.yaml", false, [2]⟩ : document).save diskTwo c w).map
            (fun r => r.2)) ∧
      ∃ fs2, (⟨RWMutex.zero, "api-spec.yaml", false, [2]⟩ : document).tick diskTwo none none
          = some ({ (⟨RWMutex.zero, "api-spec.yaml", false, [2]⟩ : document) with
              saved := true }, fs2) ∧
        fs2.files "api-spec.yaml"
          = some (⟨RWMutex.zero, "api-spec.yaml", false, [2]⟩ : document).buf ∧
        fs2.writes = diskTwo.writes + 2 :=
  init_dirty_first_tick_saves "api-spec.yaml" diskTwo OpenFaults.ok
    ⟨RWMutex.zero, "api-spec.yaml", false, [2]⟩ diskTwo (by rfl)

/-- C10 as stated fails: the document built by `init` is not marked saved,
and the first tick after a load without error, with no PUT, writes to the
disk (the count of writes goes from 1 to 3). -/
theorem init_clean_counterexample :
    ¬ ((init "api-spec.yaml").buf = [] ∧ (init "api-spec.yaml").saved = true) ∧
      ((boot "api-spec.yaml" diskTwo).run [.load OpenFaults.ok]).map (fun s => s.fs.writes)
        = some 1 ∧
      ((boot "api-spec.yaml" diskTwo).run [.load OpenFaults.ok, .tick none none]).map
        (fun s => s.fs.writes) = some 3 := by
  refine ⟨by decide, by rfl, by rfl⟩

/-- C4 at a failing input: `open` on a document whose buffer holds `[1]` from
an earlier PUT, with `[2]` in the file, returns no error and leaves `[1, 2]`
in the buffer, not the file's `[2]`. -/
theorem open_appends_to_buffer :
    (document.open ⟨RWMutex.zero, "api-spec.yaml", false, [1]⟩ diskTwo OpenFaults.ok).map
        (fun r => (r.1, r.2.1))
      = some (none, ⟨RWMutex.zero, "api-spec.yaml", false, [1, 2]⟩) ∧
    diskTwo.files "api-spec.yaml" = some [2] := by
  refine ⟨by rfl, by rfl⟩

/-- C8 at a failing input: `save` with `os.Create` failing returns the error
with the read lock still held (one reader where there was none), on any
disk; so does `save` with `f.Write` failing; a PUT that follows does not
get the lock. Only the `save` that meets no failure gives the lock back. -/
theorem save_failure_holds_read_lock (fs : FileSys) (body : Reader) (w : ResponseWriter) :
    docPut.save fs (some (.Other 13)) none
        = some (some (.Other 13), { docPut with mu := ⟨false, 1⟩ }, fs) ∧
      (docPut.save fs none (some ⟨0, .Other 28⟩)).map (fun r => (r.1, r.2.1))
        = some (some (.Other 28), { docPut with mu := ⟨false, 1⟩ }) ∧
      handleBackend { docPut with mu := ⟨false, 1⟩ } w ⟨MethodPut, body⟩ = none ∧
      (docPut.save fs none none).map (fun r => (r.1, r.2.1.mu)) = some (none, docPut.mu) := by
  refine ⟨by rfl, by rfl, by rfl, by rfl⟩

/-- C9 at a failing input: `open` with `os.Open` failing with an error other
than not-exist returns the error with the write lock still held, on any
disk; so does `open` of a missing file with `os.Create` failing; a GET or a
PUT that follows does not get the lock. Only the `open` that returns no
error gives the lock back. -/
theorem open_failure_holds_lock (fs : FileSys) (body : Reader) (w : ResponseWriter) :
    (init "api-spec.yaml").open fs ⟨some 13, none, none⟩
        = some (some (.Other 13), { init "api-spec.yaml" with mu := ⟨true, 0⟩ }, fs) ∧
      (init "api-spec.yaml").open diskEmpty ⟨none, some (.Other 13), none⟩
        = some (some (.Other 13), { init "api-spec.yaml" with mu := ⟨true, 0⟩ }, diskEmpty) ∧
      handleBackend { init "api-spec.yaml" with mu := ⟨true, 0⟩ } w ⟨MethodGet, body⟩ = none ∧
      handleBackend { init "api-spec.yaml" with mu := ⟨true, 0⟩ } w ⟨MethodPut, body⟩ = none ∧
      ((init "api-spec.yaml").open diskTwo OpenFaults.ok).map (fun r => (r.1, r.2.1.mu))
        = some (none, RWMutex.zero) := by
  refine ⟨by rfl, by rfl, by rfl, by rfl, by rfl⟩

end Sweb
